import Mathlib

/-!
Shallow embedding of the instruction-emission layer of the template pipeline
(`packages/compiler/src/template/pipeline/src/instruction.ts`) and, modelled
from the specification, the module scope resolver whose implementation files
are not part of the sources (only the re-export index
`packages/compiler-cli/src/ngtsc/scope/index.ts` is present).

Output-AST expressions (`o.Expression`) are modelled by the inductive
`Expression`; instruction references (`Identifiers.*`) by the inductive
`Identifiers`; statement-wrapped IR operations (`ir.CreateOp` / `ir.UpdateOp`
produced by `ir.createStatementOp`) by `StatementOp`.  Functions that throw
in the source return `Except String _` here, carrying the thrown message.
-/

/-- The instruction references used by this file (`Identifiers.*` in the
source); an external stable symbol with identity equality. -/
inductive Identifiers where
  | element
  | elementStart
  | elementEnd
  | elementContainerStart
  | elementContainer
  | elementContainerEnd
  | templateCreate
  | listener
  | advance
  | reference
  | nextContext
  | getCurrentView
  | restoreView
  | resetView
  | text
  | property
  | textInterpolate
  | textInterpolate1
  | textInterpolate2
  | textInterpolate3
  | textInterpolate4
  | textInterpolate5
  | textInterpolate6
  | textInterpolate7
  | textInterpolate8
  | textInterpolateV
deriving DecidableEq, Repr

/-- A literal value as accepted by `o.literal`: a number, a string, or
`null` (the source passes `constIndex` which "might be null"). -/
inductive LiteralValue where
  | num (n : Int)
  | str (s : String)
  | null
deriving DecidableEq, Repr

/-- Output-AST expressions (`o.Expression`), restricted to the node kinds this
file constructs: literals (`o.literal`), literal arrays (`o.literalArr`),
external-reference imports (`o.importExpr`), calls (`.callFn`), and opaque
expressions handed in by callers (`readVar`). -/
inductive Expression where
  | literal (v : LiteralValue)
  | literalArr (entries : List Expression)
  | importExpr (ref : Identifiers)
  | callFn (receiver : Expression) (args : List Expression)
  | readVar (name : String)
deriving Repr

/-- `o.literal` applied to a number. -/
def litNum (n : Int) : Expression := .literal (.num n)

/-- `o.literal` applied to a string. -/
def litStr (s : String) : Expression := .literal (.str s)

/-- `o.literal` applied to a possibly-null number (`o.literal(constIndex)`
where `constIndex: number|null`). -/
def litOfOptNum : Option Int → Expression
  | some n => .literal (.num n)
  | none => .literal .null

/-- A statement, as produced by `Expression.toStmt`: only expression
statements occur in this file. -/
inductive Statement where
  | exprStmt (e : Expression)
deriving Repr

/-- `.toStmt()` on an output-AST expression. -/
def Expression.toStmt (e : Expression) : Statement := .exprStmt e

/-- An IR operation wrapping a statement, as built by `ir.createStatementOp`.
Both `ir.CreateOp` and `ir.UpdateOp` are represented this way here. -/
structure StatementOp where
  statement : Statement
deriving Repr

/-- `ir.createStatementOp`. -/
def createStatementOp (s : Statement) : StatementOp := ⟨s⟩

/-- `ir.CreateOp` as used by this file. -/
abbrev CreateOp := StatementOp

/-- `ir.UpdateOp` as used by this file. -/
abbrev UpdateOp := StatementOp

/-- The private helper `call(instruction, args)` of `instruction.ts`:
`ir.createStatementOp(o.importExpr(instruction).callFn(args).toStmt())`. -/
def call (instruction : Identifiers) (args : List Expression) : StatementOp :=
  createStatementOp ((Expression.importExpr instruction).callFn args).toStmt

/-- The argument list of the call expression wrapped by a statement op
(used only to state theorems). -/
def StatementOp.callArgs : StatementOp → List Expression
  | ⟨.exprStmt (.callFn _ args)⟩ => args
  | _ => []

/-- The instruction reference targeted by the call expression wrapped by a
statement op (used only to state theorems). -/
def StatementOp.callee : StatementOp → Option Identifiers
  | ⟨.exprStmt (.callFn (.importExpr ref) _)⟩ => some ref
  | _ => none

/-- `elementOrContainerBase` of `instruction.ts`: builds the positional
argument list (slot; tag if non-null; then the constIndex/localRefIndex
tail) and emits the call. -/
def elementOrContainerBase (instruction : Identifiers) (slot : Int)
    (tag : Option String) (constIndex : Option Int)
    (localRefIndex : Option Int) : CreateOp :=
  let args := [litNum slot]
  let args := match tag with
    | some t => args ++ [litStr t]
    | none => args
  let args := match localRefIndex with
    | some lri => args ++ [litOfOptNum constIndex, litNum lri]
    | none => match constIndex with
      | some ci => args ++ [litNum ci]
      | none => args
  call instruction args

/-- `element` of `instruction.ts`. -/
def element (slot : Int) (tag : String) (constIndex : Option Int)
    (localRefIndex : Option Int) : CreateOp :=
  elementOrContainerBase .element slot (some tag) constIndex localRefIndex

/-- `elementStart` of `instruction.ts`. -/
def elementStart (slot : Int) (tag : String) (constIndex : Option Int)
    (localRefIndex : Option Int) : CreateOp :=
  elementOrContainerBase .elementStart slot (some tag) constIndex localRefIndex

/-- `elementEnd` of `instruction.ts`. -/
def elementEnd : CreateOp := call .elementEnd []

/-- `elementContainerStart` of `instruction.ts` (tag is passed as null). -/
def elementContainerStart (slot : Int) (constIndex : Option Int)
    (localRefIndex : Option Int) : CreateOp :=
  elementOrContainerBase .elementContainerStart slot none constIndex localRefIndex

/-- `elementContainer` of `instruction.ts` (tag is passed as null). -/
def elementContainer (slot : Int) (constIndex : Option Int)
    (localRefIndex : Option Int) : CreateOp :=
  elementOrContainerBase .elementContainer slot none constIndex localRefIndex

/-- `elementContainerEnd` of `instruction.ts`. -/
def elementContainerEnd : CreateOp := call .elementContainerEnd []

/-- `advance` of `instruction.ts`: always one literal argument. -/
def advance (delta : Int) : UpdateOp :=
  call .advance [litNum delta]

/-- `reference` of `instruction.ts`. -/
def reference (slot : Int) : Expression :=
  (Expression.importExpr .reference).callFn [litNum slot]

/-- `nextContext` of `instruction.ts`: the argument is omitted when
`steps === 1`. -/
def nextContext (steps : Int) : Expression :=
  (Expression.importExpr .nextContext).callFn
    (if steps = 1 then [] else [litNum steps])

/-- `getCurrentView` of `instruction.ts`. -/
def getCurrentView : Expression :=
  (Expression.importExpr .getCurrentView).callFn []

/-- `restoreView` of `instruction.ts`. -/
def restoreView (savedView : Expression) : Expression :=
  (Expression.importExpr .restoreView).callFn [savedView]

/-- `resetView` of `instruction.ts`. -/
def resetView (returnValue : Expression) : Expression :=
  (Expression.importExpr .resetView).callFn [returnValue]

/-- `text` of `instruction.ts`: the initial value is appended only when it
is a non-empty string. -/
def text (slot : Int) (initialValue : String) : CreateOp :=
  let args := [litNum slot]
  let args := if initialValue ≠ "" then args ++ [litStr initialValue] else args
  call .text args

/-- `property` of `instruction.ts`. -/
def property (name : String) (expression : Expression) : UpdateOp :=
  call .property [litStr name, expression]

/-- `VariadicInstructionConfig` of `instruction.ts`: an ordered list of
fixed-arity ("constant") instruction references, an optional variable-arity
instruction, and the mapping from raw argument count to logical count.  The
mapping may throw in the source, hence `Except`. -/
structure VariadicInstructionConfig where
  constant : List Identifiers
  «variable» : Option Identifiers
  mapping : Nat → Except String Nat

/-- `TEXT_INTERPOLATE_CONFIG` of `instruction.ts`: nine constant forms
(`textInterpolate` … `textInterpolate8`), the variable form
`textInterpolateV`, and the mapping `n ↦ (n - 1) / 2` which rejects even
argument counts. -/
def TEXT_INTERPOLATE_CONFIG : VariadicInstructionConfig where
  constant := [
    .textInterpolate,
    .textInterpolate1,
    .textInterpolate2,
    .textInterpolate3,
    .textInterpolate4,
    .textInterpolate5,
    .textInterpolate6,
    .textInterpolate7,
    .textInterpolate8,
  ]
  «variable» := some .textInterpolateV
  mapping := fun n =>
    if n % 2 = 0 then .error "Expected odd number of arguments"
    else .ok ((n - 1) / 2)

/-- `callVariadicInstructionExpr` of `instruction.ts`: maps the argument
count; if the logical count indexes within the constant list, calls that
constant form with the variadic arguments appended to the base arguments;
otherwise calls the variable form (if configured) with a single packed
`o.literalArr`; otherwise throws. -/
def callVariadicInstructionExpr (config : VariadicInstructionConfig)
    (baseArgs interpolationArgs : List Expression) : Except String Expression :=
  match config.mapping interpolationArgs.length with
  | .error e => .error e
  | .ok n =>
    if h : n < config.constant.length then
      .ok ((Expression.importExpr (config.constant.get ⟨n, h⟩)).callFn
        (baseArgs ++ interpolationArgs))
    else match config.«variable» with
      | some v =>
        .ok ((Expression.importExpr v).callFn
          (baseArgs ++ [Expression.literalArr interpolationArgs]))
      | none => .error "AssertionError: unable to call variadic function"

/-- `callVariadicInstruction` of `instruction.ts`: wraps the emitted call
expression into a statement op. -/
def callVariadicInstruction (config : VariadicInstructionConfig)
    (baseArgs interpolationArgs : List Expression) : Except String UpdateOp :=
  (callVariadicInstructionExpr config baseArgs interpolationArgs).map
    (fun e => createStatementOp e.toStmt)

/-- The interleaving loop of `textInterpolate`: for each index below
`expressions.length` push `o.literal(strings[idx])` then `expressions[idx]`,
and finally push the literal of the last string (`strings[expressions.length]`). -/
def interleaveArgs : List String → List Expression → List Expression
  | s :: srest, e :: erest => litStr s :: e :: interleaveArgs srest erest
  | s :: _, [] => [litStr s]
  | [], _ => []

/-- The `interpolationArgs` list built by `textInterpolate`: when there is
exactly one expression and `strings[0] === '' && strings[1] === ''` (an
out-of-bounds access reads `undefined`, which is not `''`, hence `get?`),
the bare expression alone; otherwise the interleaving. -/
def interpolationArgsOf (strings : List String) (expressions : List Expression) :
    List Expression :=
  match expressions with
  | [e] =>
    if strings.get? 0 = some "" ∧ strings.get? 1 = some "" then [e]
    else interleaveArgs strings expressions
  | _ => interleaveArgs strings expressions

/-- `textInterpolate` of `instruction.ts`: validates the strings/expressions
shape, builds the interpolation argument list, and hands it to the variadic
collapser with no base arguments. -/
def textInterpolate (strings : List String) (expressions : List Expression) :
    Except String UpdateOp :=
  if strings.length < 1 ∨ expressions.length ≠ strings.length - 1 then
    .error "AssertionError: expected specific shape of args for strings/expressions in interpolation"
  else
    callVariadicInstruction TEXT_INTERPOLATE_CONFIG []
      (interpolationArgsOf strings expressions)

/-- Modelled from the spec: a module declaration graph node (the
implementation under `packages/compiler-cli/src/ngtsc/scope/src` is not in
the sources; only the re-export index is).  Per §4.3 a node "holds the set
of declared symbols, the set of imported modules (edges), and the set of
re-exported symbols".  Symbols and modules are identified by `Nat` ids. -/
structure ModuleData where
  declared : List Nat
  imports : List Nat
  exported : List Nat
deriving DecidableEq, Repr

/-- Modelled from the spec: the module scope graph, a finite map from module
id to its declaration data, "populated before any resolve call". -/
abbrev ModuleGraph := List (Nat × ModuleData)

/-- Look up a module's declaration data in the graph. -/
def lookupModule (g : ModuleGraph) (m : Nat) : Option ModuleData :=
  (g.find? (fun p => p.1 = m)).map Prod.snd

/-- Modelled from the spec: the symbols an imported module contributes to an
importer's scope — "its exported, not merely declared, symbols"; a module
that is in the visited set (i.e. mid-resolution when revisited) "contributes
its already-known partial/declared set" rather than being re-entered. -/
def importedExports (g : ModuleGraph) (visited : List Nat) (i : Nat) : List Nat :=
  match lookupModule g i with
  | none => []
  | some node => if i ∈ visited then node.declared else node.exported

/-- Modelled from the spec: `resolve(moduleId)` — "own declared symbols ∪
(for each imported module, its exported — not merely declared — symbols),
deduplicated by identity", with visited-set tracking so that the module
being resolved is never re-entered through a cycle. -/
def resolveScope (g : ModuleGraph) (m : Nat) : List Nat :=
  match lookupModule g m with
  | none => []
  | some node =>
    (node.declared ++ node.imports.flatMap (importedExports g [m])).dedup

/-! ## Supporting lemmas -/

/-- On well-shaped input (one more string than expressions) the interleaving
loop produces `2 * expressions.length + 1` arguments. -/
theorem interleaveArgs_length (strings : List String)
    (expressions : List Expression)
    (h : strings.length = expressions.length + 1) :
    (interleaveArgs strings expressions).length = 2 * expressions.length + 1 := by
  induction expressions generalizing strings with
  | nil =>
    cases strings with
    | nil => simp at h
    | cons x rest =>
      cases rest with
      | nil => rfl
      | cons y r => simp at h
  | cons e erest ih =>
    cases strings with
    | nil => simp at h
    | cons x srest =>
      have h' : srest.length = erest.length + 1 := by simpa using h
      simp only [interleaveArgs, List.length_cons, ih srest h']
      omega

/-- Even positions of the interleaving hold the string literals, in order. -/
theorem interleaveArgs_get?_even (expressions : List Expression)
    (strings : List String) (h : strings.length = expressions.length + 1)
    (i : Nat) :
    (interleaveArgs strings expressions).get? (2 * i) =
      (strings.get? i).map litStr := by
  induction expressions generalizing strings i with
  | nil =>
    cases strings with
    | nil => simp at h
    | cons x rest =>
      cases rest with
      | nil =>
        cases i with
        | zero => rfl
        | succ j => rfl
      | cons y r => simp at h
  | cons e erest ih =>
    cases strings with
    | nil => simp at h
    | cons x srest =>
      have h' : srest.length = erest.length + 1 := by simpa using h
      cases i with
      | zero => rfl
      | succ j => exact ih srest h' j

/-- Odd positions of the interleaving hold the expressions, in order. -/
theorem interleaveArgs_get?_odd (expressions : List Expression)
    (strings : List String) (h : strings.length = expressions.length + 1)
    (i : Nat) :
    (interleaveArgs strings expressions).get? (2 * i + 1) =
      expressions.get? i := by
  induction expressions generalizing strings i with
  | nil =>
    cases strings with
    | nil => simp at h
    | cons x rest =>
      cases rest with
      | nil => rfl
      | cons y r => simp at h
  | cons e erest ih =>
    cases strings with
    | nil => simp at h
    | cons x srest =>
      have h' : srest.length = erest.length + 1 := by simpa using h
      cases i with
      | zero => rfl
      | succ j => exact ih srest h' j

/-- Outside the degenerate single-expression pattern, the interpolation
argument list is the plain interleaving. -/
theorem interpolationArgsOf_of_not_degenerate (strings : List String)
    (expressions : List Expression)
    (hdeg : ¬(expressions.length = 1 ∧ strings.get? 0 = some "" ∧
      strings.get? 1 = some "")) :
    interpolationArgsOf strings expressions =
      interleaveArgs strings expressions := by
  match expressions with
  | [] => rfl
  | [e] =>
    simp only [interpolationArgsOf]
    rw [if_neg]
    intro hc
    exact hdeg ⟨rfl, hc.1, hc.2⟩
  | a :: b :: r => rfl

/-- The mapping of `TEXT_INTERPOLATE_CONFIG` sends an odd argument count
`2 * k + 1` to the logical count `k`. -/
theorem TEXT_INTERPOLATE_CONFIG_mapping_odd (k : Nat) :
    TEXT_INTERPOLATE_CONFIG.mapping (2 * k + 1) = .ok k := by
  have h2 : ¬((2 * k + 1) % 2 = 0) := by omega
  simp only [TEXT_INTERPOLATE_CONFIG, if_neg h2]
  congr 1
  omega

/-- On well-shaped input, `textInterpolate` passes its entry guard and hands
the interpolation arguments to the variadic collapser. -/
theorem textInterpolate_valid (strings : List String)
    (expressions : List Expression)
    (h : strings.length = expressions.length + 1) :
    textInterpolate strings expressions =
      callVariadicInstruction TEXT_INTERPOLATE_CONFIG []
        (interpolationArgsOf strings expressions) := by
  unfold textInterpolate
  rw [if_neg (by omega)]

/-- Collapser, constant calling pattern: when the mapped logical count
indexes within the constant-form list, that instruction is called with the
variadic arguments appended to the base arguments. -/
theorem variadic_constant_form (config : VariadicInstructionConfig)
    (baseArgs iargs : List Expression) (n : Nat)
    (hmap : config.mapping iargs.length = .ok n)
    (h : n < config.constant.length) :
    callVariadicInstructionExpr config baseArgs iargs =
      .ok ((Expression.importExpr (config.constant.get ⟨n, h⟩)).callFn
        (baseArgs ++ iargs)) := by
  simp only [callVariadicInstructionExpr, hmap]
  rw [dif_pos h]

/-- Collapser, variable calling pattern: when the logical count is beyond
the constant-form list and a variable form is configured, it is called with
one packed-array argument. -/
theorem variadic_variable_form (config : VariadicInstructionConfig)
    (baseArgs iargs : List Expression) (n : Nat)
    (hmap : config.mapping iargs.length = .ok n)
    (hge : config.constant.length ≤ n) (v : Identifiers)
    (hv : config.«variable» = some v) :
    callVariadicInstructionExpr config baseArgs iargs =
      .ok ((Expression.importExpr v).callFn
        (baseArgs ++ [Expression.literalArr iargs])) := by
  simp only [callVariadicInstructionExpr, hmap, hv]
  rw [dif_neg (by omega)]

/-! ## Theorems -/

/-- Claim C9: `advance(delta)` always emits a call with exactly one literal
argument equal to `delta`, for every `delta` including `delta = 1` — unlike
`nextContext`, `advance` has no omit-the-argument special case. -/
theorem claim_C9_advance_always_one_arg (delta : Int) :
    (advance delta).callee = some .advance ∧
    (advance delta).callArgs = [litNum delta] :=
  ⟨rfl, rfl⟩

/-- Claim C5: `nextContext(steps)` emits a call with zero arguments when
`steps = 1`, and a call with exactly one literal argument equal to `steps`
for every `steps ≠ 1`. -/
theorem claim_C5_nextContext_arg_shape (steps : Int) :
    (steps = 1 →
      nextContext steps = (Expression.importExpr .nextContext).callFn []) ∧
    (steps ≠ 1 →
      nextContext steps =
        (Expression.importExpr .nextContext).callFn [litNum steps]) := by
  constructor <;> intro h <;> simp [nextContext, h]

/-- Witness for claim C5 at `steps = 1` and `steps = 2`. -/
theorem claim_C5_nextContext_arg_shape_witness :
    nextContext 1 = (Expression.importExpr .nextContext).callFn [] ∧
    nextContext 2 = (Expression.importExpr .nextContext).callFn [litNum 2] :=
  ⟨(claim_C5_nextContext_arg_shape 1).1 rfl,
   (claim_C5_nextContext_arg_shape 2).2 (by decide)⟩

/-- Claim C6: `text(slot, initialValue)` emits a call whose first argument is
the slot literal, followed by the initial-value string literal exactly when
`initialValue` is non-empty; when it is the empty string the call has exactly
one argument. -/
theorem claim_C6_text_arg_shape (slot : Int) (initialValue : String) :
    (text slot initialValue).callee = some .text ∧
    (initialValue = "" → (text slot initialValue).callArgs = [litNum slot]) ∧
    (initialValue ≠ "" →
      (text slot initialValue).callArgs = [litNum slot, litStr initialValue]) := by
  by_cases h : initialValue = "" <;>
    simp [text, call, createStatementOp, Expression.toStmt, StatementOp.callArgs,
      StatementOp.callee, h]

/-- Witness for claim C6 at an empty and a non-empty initial value. -/
theorem claim_C6_text_arg_shape_witness :
    (text 4 "").callArgs = [litNum 4] ∧
    (text 4 "hi").callArgs = [litNum 4, litStr "hi"] :=
  ⟨(claim_C6_text_arg_shape 4 "").2.1 rfl,
   (claim_C6_text_arg_shape 4 "hi").2.2 (by decide)⟩

/-- Claim C1: for `element`, `elementStart`, `elementContainer` and
`elementContainerStart`, the emitted argument list is positional: the slot
literal first; the tag literal exactly when the tag is non-null
(element/elementStart include it, container variants never do); then, when
the local-reference index is non-null, the fixed trailing pair of the
constant-pool index literal (a null literal when absent) followed by the
local-reference index literal; otherwise the constant-pool index literal
alone exactly when it is non-null — covering all 2×2×2 combinations of
tag/constIndex/localRefIndex presence. -/
theorem claim_C1_element_positional_args (slot : Int) (tag : String)
    (constIndex localRefIndex : Option Int) :
    let tail : List Expression := match localRefIndex with
      | some lri => [match constIndex with
          | some ci => litNum ci
          | none => Expression.literal .null,
        litNum lri]
      | none => match constIndex with
        | some ci => [litNum ci]
        | none => []
    (element slot tag constIndex localRefIndex).callArgs =
        litNum slot :: litStr tag :: tail ∧
    (elementStart slot tag constIndex localRefIndex).callArgs =
        litNum slot :: litStr tag :: tail ∧
    (elementContainer slot constIndex localRefIndex).callArgs =
        litNum slot :: tail ∧
    (elementContainerStart slot constIndex localRefIndex).callArgs =
        litNum slot :: tail := by
  intro tail
  cases localRefIndex <;> cases constIndex <;> exact ⟨rfl, rfl, rfl, rfl⟩

/-- Claim C2: after the config mapping yields logical count `n`, the
collapser emits the constant-form instruction at index `n` with the base
arguments followed by the full variadic list when `n` indexes within the
constant list, and otherwise the configured variable-arity instruction with
one packed-array argument; in particular `textInterpolate` with `n`
expressions (outside the degenerate single-expression case) emits the
constant form at table index `n` when `n ≤ 8` and the variable form when
`n > 8`. -/
theorem claim_C2_variadic_collapse :
    (∀ (config : VariadicInstructionConfig) (baseArgs iargs : List Expression)
      (n : Nat), config.mapping iargs.length = .ok n →
      (∀ (h : n < config.constant.length),
        callVariadicInstructionExpr config baseArgs iargs =
          .ok ((Expression.importExpr (config.constant.get ⟨n, h⟩)).callFn
            (baseArgs ++ iargs))) ∧
      (config.constant.length ≤ n → ∀ v, config.«variable» = some v →
        callVariadicInstructionExpr config baseArgs iargs =
          .ok ((Expression.importExpr v).callFn
            (baseArgs ++ [Expression.literalArr iargs])))) ∧
    (∀ (strings : List String) (expressions : List Expression),
      strings.length = expressions.length + 1 →
      ¬(expressions.length = 1 ∧ strings.get? 0 = some "" ∧
        strings.get? 1 = some "") →
      (∀ (h : expressions.length < TEXT_INTERPOLATE_CONFIG.constant.length),
        textInterpolate strings expressions =
          .ok (createStatementOp ((Expression.importExpr
            (TEXT_INTERPOLATE_CONFIG.constant.get ⟨expressions.length, h⟩)).callFn
            (interleaveArgs strings expressions)).toStmt)) ∧
      (8 < expressions.length →
        textInterpolate strings expressions =
          .ok (createStatementOp ((Expression.importExpr .textInterpolateV).callFn
            [Expression.literalArr (interleaveArgs strings expressions)]).toStmt))) := by
  constructor
  · intro config baseArgs iargs n hmap
    exact ⟨fun h => variadic_constant_form config baseArgs iargs n hmap h,
      fun hge v hv => variadic_variable_form config baseArgs iargs n hmap hge v hv⟩
  · intro strings expressions hlen hdeg
    have hinterp := interpolationArgsOf_of_not_degenerate strings expressions hdeg
    have hmap : TEXT_INTERPOLATE_CONFIG.mapping
        (interpolationArgsOf strings expressions).length = .ok expressions.length := by
      rw [hinterp, interleaveArgs_length strings expressions hlen]
      exact TEXT_INTERPOLATE_CONFIG_mapping_odd expressions.length
    constructor
    · intro h
      rw [textInterpolate_valid strings expressions hlen]
      unfold callVariadicInstruction
      rw [variadic_constant_form TEXT_INTERPOLATE_CONFIG []
        (interpolationArgsOf strings expressions) expressions.length hmap h, hinterp]
      rfl
    · intro h8
      have hge : TEXT_INTERPOLATE_CONFIG.constant.length ≤ expressions.length := by
        have h9 : TEXT_INTERPOLATE_CONFIG.constant.length = 9 := rfl
        omega
      rw [textInterpolate_valid strings expressions hlen]
      unfold callVariadicInstruction
      rw [variadic_variable_form TEXT_INTERPOLATE_CONFIG []
        (interpolationArgsOf strings expressions) expressions.length hmap hge
        .textInterpolateV rfl, hinterp]
      rfl

/-- Witness for claim C2: the constant form `textInterpolate1` at one
expression, and the variable form `textInterpolateV` at nine expressions. -/
theorem claim_C2_variadic_collapse_witness :
    textInterpolate ["a", "b"] [Expression.readVar "x"] =
      .ok (createStatementOp ((Expression.importExpr .textInterpolate1).callFn
        [litStr "a", Expression.readVar "x", litStr "b"]).toStmt) ∧
    textInterpolate (List.replicate 10 "s")
        (List.replicate 9 (Expression.readVar "x")) =
      .ok (createStatementOp ((Expression.importExpr .textInterpolateV).callFn
        [Expression.literalArr (interleaveArgs (List.replicate 10 "s")
          (List.replicate 9 (Expression.readVar "x")))]).toStmt) :=
  ⟨by
    exact (claim_C2_variadic_collapse.2 ["a", "b"] [Expression.readVar "x"] rfl
      (by decide)).1 (by decide),
   by
    exact (claim_C2_variadic_collapse.2 (List.replicate 10 "s")
      (List.replicate 9 (Expression.readVar "x")) rfl (by decide)).2 (by decide)⟩

/-- Claim C3: `textInterpolate` with exactly one expression and two empty
surrounding strings emits a single-argument call whose sole argument is that
bare expression; for every other well-shaped input with `K` expressions and
`K + 1` strings, the interpolation argument list has length `2K + 1` and
interleaves strings and expressions in original order (string literals at
even positions, expressions at odd positions). -/
theorem claim_C3_textInterpolate_interleaving :
    (∀ e : Expression, textInterpolate ["", ""] [e] =
      .ok (createStatementOp
        ((Expression.importExpr Identifiers.textInterpolate).callFn [e]).toStmt)) ∧
    (∀ (strings : List String) (expressions : List Expression),
      strings.length = expressions.length + 1 →
      ¬(expressions.length = 1 ∧ strings.get? 0 = some "" ∧
        strings.get? 1 = some "") →
      (interpolationArgsOf strings expressions).length =
          2 * expressions.length + 1 ∧
      (∀ i, (interpolationArgsOf strings expressions).get? (2 * i) =
          (strings.get? i).map litStr) ∧
      (∀ i, (interpolationArgsOf strings expressions).get? (2 * i + 1) =
          expressions.get? i)) := by
  constructor
  · intro e
    rw [textInterpolate_valid ["", ""] [e] rfl]
    have hdeg : interpolationArgsOf ["", ""] [e] = [e] := by
      simp [interpolationArgsOf]
    rw [hdeg]
    unfold callVariadicInstruction
    rw [variadic_constant_form TEXT_INTERPOLATE_CONFIG [] [e] 0
      (TEXT_INTERPOLATE_CONFIG_mapping_odd 0) (by decide)]
    rfl
  · intro strings expressions hlen hdeg
    rw [interpolationArgsOf_of_not_degenerate strings expressions hdeg]
    exact ⟨interleaveArgs_length strings expressions hlen,
      fun i => interleaveArgs_get?_even expressions strings hlen i,
      fun i => interleaveArgs_get?_odd expressions strings hlen i⟩

/-- Witness for claim C3: the degenerate case at a concrete expression, and
the general case at two expressions and three strings. -/
theorem claim_C3_textInterpolate_interleaving_witness :
    textInterpolate ["", ""] [Expression.readVar "x"] =
      .ok (createStatementOp ((Expression.importExpr
        Identifiers.textInterpolate).callFn [Expression.readVar "x"]).toStmt) ∧
    (interpolationArgsOf ["a", "b", "c"]
      [Expression.readVar "x", Expression.readVar "y"]).length = 5 :=
  ⟨claim_C3_textInterpolate_interleaving.1 (Expression.readVar "x"),
   (claim_C3_textInterpolate_interleaving.2 ["a", "b", "c"]
     [Expression.readVar "x", Expression.readVar "y"] rfl (by decide)).1⟩

/-- Claim C4: whenever the combined strings-plus-expressions count is even,
`textInterpolate` fails fast with the descriptive assertion error and no
operation is produced. -/
theorem claim_C4_textInterpolate_even_fails (strings : List String)
    (expressions : List Expression)
    (heven : (strings.length + expressions.length) % 2 = 0) :
    textInterpolate strings expressions =
      .error "AssertionError: expected specific shape of args for strings/expressions in interpolation" := by
  unfold textInterpolate
  rw [if_pos (by omega)]

/-- Witness for claim C4 at two strings and zero expressions. -/
theorem claim_C4_textInterpolate_even_fails_witness :
    textInterpolate ["a", "b"] [] =
      .error "AssertionError: expected specific shape of args for strings/expressions in interpolation" :=
  claim_C4_textInterpolate_even_fails ["a", "b"] [] rfl

/-- Claim C7: when the mapped logical count is at least the length of the
constant-form list and no variable-arity instruction is configured, the
collapser fails fast with an assertion error instead of emitting a call. -/
theorem claim_C7_variadic_no_form_fails (config : VariadicInstructionConfig)
    (baseArgs iargs : List Expression) (n : Nat)
    (hmap : config.mapping iargs.length = .ok n)
    (hge : config.constant.length ≤ n)
    (hvar : config.«variable» = none) :
    callVariadicInstructionExpr config baseArgs iargs =
      .error "AssertionError: unable to call variadic function" := by
  simp only [callVariadicInstructionExpr, hmap, hvar]
  rw [dif_neg (by omega)]

/-- Witness for claim C7 at a config with no constant and no variable
forms. -/
theorem claim_C7_variadic_no_form_fails_witness :
    callVariadicInstructionExpr ⟨[], none, fun _ => .ok 0⟩ [] [] =
      .error "AssertionError: unable to call variadic function" :=
  claim_C7_variadic_no_form_fails ⟨[], none, fun _ => .ok 0⟩ [] [] 0 rfl
    (Nat.le_refl 0) rfl

/-- Claim C10: for every input passing `textInterpolate`'s entry validation,
the interpolation argument list handed to the collapser has odd length, the
config mapping succeeds (the `Expected odd number of arguments` error is
unreachable on this path), and `textInterpolate` produces an operation. -/
theorem claim_C10_odd_check_unreachable (strings : List String)
    (expressions : List Expression) (h1 : 1 ≤ strings.length)
    (h2 : expressions.length = strings.length - 1) :
    (interpolationArgsOf strings expressions).length % 2 = 1 ∧
    (∃ k, TEXT_INTERPOLATE_CONFIG.mapping
      (interpolationArgsOf strings expressions).length = .ok k) ∧
    (∃ op, textInterpolate strings expressions = .ok op) := by
  have hlen : strings.length = expressions.length + 1 := by omega
  have hodd : (interpolationArgsOf strings expressions).length % 2 = 1 := by
    by_cases hdeg : expressions.length = 1 ∧ strings.get? 0 = some "" ∧
        strings.get? 1 = some ""
    · obtain ⟨hlen1, hs0, hs1⟩ := hdeg
      match expressions, hlen1 with
      | [e], _ =>
        simp only [List.get?_eq_getElem?] at hs0 hs1
        simp [interpolationArgsOf, hs0, hs1]
    · rw [interpolationArgsOf_of_not_degenerate strings expressions hdeg,
        interleaveArgs_length strings expressions hlen]
      omega
  obtain ⟨k, hk⟩ : ∃ k, (interpolationArgsOf strings expressions).length =
      2 * k + 1 := ⟨((interpolationArgsOf strings expressions).length - 1) / 2,
        by omega⟩
  have hmap : TEXT_INTERPOLATE_CONFIG.mapping
      (interpolationArgsOf strings expressions).length = .ok k := by
    rw [hk]
    exact TEXT_INTERPOLATE_CONFIG_mapping_odd k
  refine ⟨hodd, ⟨k, hmap⟩, ?_⟩
  rw [textInterpolate_valid strings expressions hlen]
  by_cases hlt : k < TEXT_INTERPOLATE_CONFIG.constant.length
  · exact ⟨_, by
      unfold callVariadicInstruction
      rw [variadic_constant_form TEXT_INTERPOLATE_CONFIG []
        (interpolationArgsOf strings expressions) k hmap hlt]
      rfl⟩
  · exact ⟨_, by
      unfold callVariadicInstruction
      rw [variadic_variable_form TEXT_INTERPOLATE_CONFIG []
        (interpolationArgsOf strings expressions) k hmap (by omega)
        .textInterpolateV rfl]
      rfl⟩

/-- Witness for claim C10 at one expression between two non-empty strings. -/
theorem claim_C10_odd_check_unreachable_witness :
    (interpolationArgsOf ["a", "b"] [Expression.readVar "x"]).length % 2 = 1 ∧
    (∃ k, TEXT_INTERPOLATE_CONFIG.mapping
      (interpolationArgsOf ["a", "b"] [Expression.readVar "x"]).length = .ok k) ∧
    (∃ op, textInterpolate ["a", "b"] [Expression.readVar "x"] = .ok op) :=
  claim_C10_odd_check_unreachable ["a", "b"] [Expression.readVar "x"]
    (by decide) rfl

/-- Claim C8 (scope resolver modelled from the spec, since its
implementation files are not in the sources): for a module graph containing
an import cycle between `a` and `b`, resolution of `a` terminates — the
`resolveScope` function is total and its value is characterized below — and
the resolved scope of `a` is exactly `a`'s own declared symbols united with
the exported (not merely declared) symbols of each module `a` imports, with
no duplicate entries. -/
theorem claim_C8_cycle_scope_resolution (g : ModuleGraph) (a b : Nat)
    (na nb : ModuleData)
    (ha : lookupModule g a = some na) (hb : lookupModule g b = some nb)
    (hcycle : b ∈ na.imports ∧ a ∈ nb.imports)
    (hself : a ∉ na.imports) :
    (resolveScope g a).Nodup ∧
    (∀ s, s ∈ resolveScope g a ↔
      s ∈ na.declared ∨ ∃ i ni, i ∈ na.imports ∧ lookupModule g i = some ni ∧
        s ∈ ni.exported) := by
  have hres : resolveScope g a =
      (na.declared ++ na.imports.flatMap (importedExports g [a])).dedup := by
    unfold resolveScope
    rw [ha]
  have himp : ∀ i, i ∈ na.imports → ∀ s,
      s ∈ importedExports g [a] i ↔
        ∃ ni, lookupModule g i = some ni ∧ s ∈ ni.exported := by
    intro i hi s
    have hia : i ≠ a := fun h => hself (h ▸ hi)
    unfold importedExports
    cases hgi : lookupModule g i with
    | none => simp
    | some ni => simp [List.mem_singleton, hia]
  rw [hres]
  refine ⟨List.nodup_dedup _, fun s => ?_⟩
  rw [List.mem_dedup, List.mem_append, List.mem_flatMap]
  constructor
  · rintro (h | ⟨i, hi, hs⟩)
    · exact Or.inl h
    · obtain ⟨ni, hg, hs'⟩ := (himp i hi s).1 hs
      exact Or.inr ⟨i, ni, hi, hg, hs'⟩
  · rintro (h | ⟨i, ni, hi, hg, hs⟩)
    · exact Or.inl h
    · exact Or.inr ⟨i, hi, (himp i hi s).2 ⟨ni, hg, hs⟩⟩

/-- Witness for claim C8 on the concrete cyclic graph where module 0 imports
module 10 and module 10 imports module 0. -/
theorem claim_C8_cycle_scope_resolution_witness :
    (resolveScope [(0, ⟨[1, 2], [10], [99]⟩), (10, ⟨[3], [0], [2, 4]⟩)] 0).Nodup ∧
    (4 ∈ resolveScope [(0, ⟨[1, 2], [10], [99]⟩), (10, ⟨[3], [0], [2, 4]⟩)] 0 ↔
      4 ∈ ([1, 2] : List Nat) ∨
        ∃ i ni, i ∈ ([10] : List Nat) ∧
          lookupModule [(0, ⟨[1, 2], [10], [99]⟩), (10, ⟨[3], [0], [2, 4]⟩)] i =
            some ni ∧ 4 ∈ ni.exported) :=
  ⟨(claim_C8_cycle_scope_resolution
      [(0, ⟨[1, 2], [10], [99]⟩), (10, ⟨[3], [0], [2, 4]⟩)] 0 10
      ⟨[1, 2], [10], [99]⟩ ⟨[3], [0], [2, 4]⟩ rfl rfl
      ⟨by decide, by decide⟩ (by decide)).1,
   (claim_C8_cycle_scope_resolution
      [(0, ⟨[1, 2], [10], [99]⟩), (10, ⟨[3], [0], [2, 4]⟩)] 0 10
      ⟨[1, 2], [10], [99]⟩ ⟨[3], [0], [2, 4]⟩ rfl rfl
      ⟨by decide, by decide⟩ (by decide)).2 4⟩
